import Mathlib

/-!
# Verification of the siot-web-flasher serial/flashing core

Shallow embedding, in Lean 4, of the logic of the `siot-web-flasher`
repository that the specification talks about:

* `src/components/SimpleTerminal.tsx` — the ANSI-escape-aware terminal
  (`parseAnsiText`, `processAnsiCode`, and the `write`/`writeLine`/`clear`/
  `getContent` handle exposed through `useImperativeHandle`);
* `src/services/flashService.ts` — `FlashService` (`flashFirmware`, `reset`,
  `isSerialReading`, `disconnect`);
* `src/services/consoleTestService.ts` — `ConsoleTestService` (`reset`,
  `stopConsole`, `sendData`);
* `src/services/flashReadService.ts` — `FlashReadService.sendData`
  (text-identical to `ConsoleTestService.sendData`).

JavaScript strings are modelled as `List Char`; `Uint8Array` buffers as
`List Nat`; numbers carried through `parseInt`/`Math.round` as exact `Int`/`ℚ`
(a comment marks the spots where IEEE-754 doubles could in principle differ,
and why they do not for the observable behaviour proved here).  External
effects (loader calls, control-line toggles, delays, serial writes) are
recorded as explicit traces of `SerialAction`s, and fallible `await`s are modelled
by explicit failure-injection flags.
-/

/-! ## SimpleTerminal.tsx: ANSI parsing -/

/-- The escape character `"\u001b"` (`ESC` in `parseAnsiText`). -/
def escChar : Char := '\x1b'

/-- `ANSI_COLORS.foreground` (codes 30–37). -/
def ansiForeground : List String :=
  ["black", "#cc0000", "#4e9a06", "#c4a000", "#3465a4", "#75507b", "#06989a", "#d3d7cf"]

/-- `ANSI_COLORS.brightForeground` (codes 90–97). -/
def ansiBrightForeground : List String :=
  ["#555753", "#ef2929", "#8ae234", "#fce94f", "#729fcf", "#ad7fa8", "#34e2e2", "#eeeeec"]

/-- `ANSI_COLORS.background` (codes 40–47). -/
def ansiBackground : List String :=
  ["black", "#cc0000", "#4e9a06", "#c4a000", "#3465a4", "#75507b", "#06989a", "#d3d7cf"]

/-- The subset of `React.CSSProperties` that `processAnsiCode` ever touches.
An absent field models an absent CSS property; `{}` is the empty style. -/
structure AnsiStyle where
  color : Option String := none
  backgroundColor : Option String := none
  fontWeight : Option String := none
  fontStyle : Option String := none
  textDecoration : Option String := none
deriving Repr, DecidableEq

/-- `processAnsiCode(currentStyle, code)` from `SimpleTerminal.tsx`:
reset on 0, palette colors on 30–37 / 90–97 / 40–47, bold on 1, italic on 3,
underline on 4, otherwise the style is returned unchanged. -/
def processAnsiCode (currentStyle : AnsiStyle) (code : Int) : AnsiStyle :=
  if code = 0 then {}
  else if 30 ≤ code ∧ code ≤ 37 then
    { currentStyle with color := some (ansiForeground.getD (code - 30).toNat "") }
  else if 90 ≤ code ∧ code ≤ 97 then
    { currentStyle with color := some (ansiBrightForeground.getD (code - 90).toNat "") }
  else if 40 ≤ code ∧ code ≤ 47 then
    { currentStyle with backgroundColor := some (ansiBackground.getD (code - 40).toNat "") }
  else if code = 1 then { currentStyle with fontWeight := some "bold" }
  else if code = 3 then { currentStyle with fontStyle := some "italic" }
  else if code = 4 then { currentStyle with textDecoration := some "underline" }
  else currentStyle

/-- The JavaScript `StrWhiteSpace` characters skipped by `parseInt` (ECMA-262
`TrimString`): ASCII whitespace, NBSP, the Unicode `Zs` spaces, line/paragraph
separators and the BOM. -/
def jsWhitespace (c : Char) : Bool :=
  [9, 10, 11, 12, 13, 32, 160, 0x1680, 0x2000, 0x2001, 0x2002, 0x2003, 0x2004,
   0x2005, 0x2006, 0x2007, 0x2008, 0x2009, 0x200A, 0x2028, 0x2029, 0x202F,
   0x205F, 0x3000, 0xFEFF].contains c.toNat

/-- Value of a (possibly empty) list of decimal digit characters, most
significant first.  An empty list yields 0 — which is exactly what
`parseInt(c, 10) || 0` produces when `parseInt` returns `NaN`. -/
def jsDigitsVal (l : List Char) : Int :=
  l.foldl (fun a c => 10 * a + ((c.toNat : Int) - 48)) 0

/-- `parseInt(c, 10) || 0` as used in `parseAnsiText`: skip leading JS
whitespace, consume an optional sign, then the longest run of decimal digits
(radix 10, so no `0x` handling); no digits at all gives `NaN`, which `|| 0`
turns into 0 (as does `-0`).  `parseInt` returns an IEEE double, so digit
strings of 16+ digits would lose precision; this exact-`Int` model is still
observationally faithful because `processAnsiCode` only distinguishes values
in `[-0.5, 97.5]`, where doubles are exact. -/
def jsParseIntCode (s : List Char) : Int :=
  match s.dropWhile jsWhitespace with
  | '-' :: u => - jsDigitsVal (u.takeWhile Char.isDigit)
  | '+' :: u => jsDigitsVal (u.takeWhile Char.isDigit)
  | u => jsDigitsVal (u.takeWhile Char.isDigit)

/-- JavaScript `escapeBuffer.split(";")`: note `"".split(";") = [""]` and that
empty fields are kept (`"a;;b" ↦ ["a", "", "b"]`). -/
def splitSemi : List Char → List (List Char)
  | [] => [[]]
  | c :: rest =>
    if c = ';' then [] :: splitSemi rest
    else
      match splitSemi rest with
      | [] => [[c]]
      | g :: gs => (c :: g) :: gs

/-- The terminator branch of `parseAnsiText`: split the escape buffer on `;`,
parse each field with `parseInt(c, 10) || 0`, and fold each code into the
current style with `processAnsiCode`, left to right. -/
def applyAnsiCodes (escBuf : List Char) (style : AnsiStyle) : AnsiStyle :=
  ((splitSemi escBuf).map jsParseIntCode).foldl processAnsiCode style

/-- One styled run produced by `parseAnsiText` (`AnsiToken` in the source). -/
structure AnsiToken where
  text : List Char
  style : AnsiStyle
deriving Repr, DecidableEq

/-- The character-indexed loop of `parseAnsiText`.  The source walks the
string with an index `i`; the `ESC` branch (taken whenever the current
character is `ESC` *and* a `[` follows, even while already inside an escape
sequence) flushes any accumulated text, clears the escape buffer and skips
the `[` (`i++`).  Inside an escape sequence, `m` fires the terminator branch
and anything else is appended to the escape buffer; outside, the character is
appended to the current text.  At the end of input a non-empty current text
is flushed.  The terminator branch does not clear the escape buffer (the
source only clears it when a new `ESC[` arrives), which this model mirrors by
threading `escBuf` through unchanged. -/
def parseAnsiGo : List Char → Bool → List Char → List Char → AnsiStyle → List AnsiToken
  | [], _, _, curText, style =>
    if curText = [] then [] else [{ text := curText, style := style }]
  | c :: '[' :: rest2, inEsc, escBuf, curText, style =>
    if c = escChar then
      (if curText = [] then [] else [{ text := curText, style := style }])
        ++ parseAnsiGo rest2 true [] [] style
    else if inEsc then
      if c = 'm' then
        parseAnsiGo ('[' :: rest2) false escBuf curText (applyAnsiCodes escBuf style)
      else
        parseAnsiGo ('[' :: rest2) true (escBuf ++ [c]) curText style
    else
      parseAnsiGo ('[' :: rest2) false escBuf (curText ++ [c]) style
  | c :: rest, inEsc, escBuf, curText, style =>
    if inEsc then
      if c = 'm' then
        parseAnsiGo rest false escBuf curText (applyAnsiCodes escBuf style)
      else
        parseAnsiGo rest true (escBuf ++ [c]) curText style
    else
      parseAnsiGo rest false escBuf (curText ++ [c]) style
termination_by structural s _ _ _ _ => s

/-- `parseAnsiText(text)` from `SimpleTerminal.tsx`. -/
def parseAnsiText (text : List Char) : List AnsiToken :=
  parseAnsiGo text false [] [] {}

/-! ### The terminal handle (`useImperativeHandle`)

The component state is the raw string `content`; `write` appends, `writeLine`
appends plus `"\n"`, `clear` empties, `getContent` returns `content` as-is,
and a `useEffect` recomputes `parseAnsiText(content)` whenever `content`
changes — so the displayed runs are always the parse of the whole
accumulated content. -/

/-- `write(text)`: `setContent(prev => prev + text)`. -/
def termWrite (content text : List Char) : List Char := content ++ text

/-- `writeLine(text)`: `setContent(prev => prev + text + "\n")`. -/
def termWriteLine (content text : List Char) : List Char := content ++ text ++ ['\n']

/-- `clear()`: `setContent("")`. -/
def termClear (_content : List Char) : List Char := []

/-- `getContent()`: returns the raw `content` state. -/
def termGetContent (content : List Char) : List Char := content

/-- The parsed runs the component renders: `parseAnsiText(content)`. -/
def termTokens (content : List Char) : List AnsiToken := parseAnsiText content

example : parseAnsiText "\x1b[31mA".data =
    [{ text := ['A'], style := { color := some "#cc0000" } }] := by decide

example : parseAnsiText "\x1b[1;4mA".data =
    [{ text := ['A'],
       style := { fontWeight := some "bold", textDecoration := some "underline" } }] := by
  decide

/-! ## flashService.ts / consoleTestService.ts: the serial session services

External effects are recorded as `SerialAction` traces; fallible `await`s on the
platform layer are modelled by failure-injection flags (`ReleaseEnv`). -/

deriving instance DecidableEq for Except

/-- One observable call into the platform / loader layer. -/
inductive SerialAction where
  | writeFlash (data : List Nat)
  | onProgress (p : Int)
  | espAfter
  | setDTR (value : Bool)
  | setRTS (value : Bool)
  | delayMs (ms : Nat)
  | portWrite (data : List Nat)
  | transportDisconnect
  | waitForUnlock (ms : Nat)
  | terminalClear
deriving Repr, DecidableEq

/-- The errors `FlashService` methods can throw (by `throw new Error(...)` or
by rethrowing), plus `operationNotPermitted`, which appears in the spec's
claims but nowhere in the code — it is included so that the claims about it
can be stated. -/
inductive FlashErr where
  | downloadError        -- "Error downloading firmware: ..."
  | emptyFirmware        -- "Firmware empty or not found"
  | deviceNotConnected   -- "Device not connected"
  | transportUnavailable -- "Transport não disponível"
  | operationNotPermitted
deriving Repr, DecidableEq

/-- The nullable fields of `FlashService`, abstracted to presence flags,
plus `monitoring`: whether `startSerialMonitoring` has launched its
background read loop (the class keeps no field for this; the loop simply
runs, which is why nothing below can consult it). -/
structure FlashServiceState where
  espLoader : Bool
  port : Bool
  transport : Bool
  reader : Bool
  writer : Bool
  monitoring : Bool
deriving Repr, DecidableEq

/-- JavaScript `Math.round` on the rationals that occur here: round half
toward `+∞`, `⌊q + 1/2⌋`.  `Math.round` computes on IEEE doubles; for the
progress values proved about below the double result is not at a
representability edge, so the exact-`ℚ` model agrees. -/
def jsRound (q : ℚ) : Int := ⌊q + 1 / 2⌋

/-- The body of `flashOptions.reportProgress` in `flashFirmware`:
`Math.round((written / total) * 100)`, the value handed to `onProgress`. -/
def reportProgress (written total : Nat) : Int :=
  jsRound ((written : ℚ) / (total : ℚ) * 100)

/-- `FlashService.flashFirmware`, with the network modelled by `fetched`
(`none` = fetch rejected or `!response.ok`; `some b` = the downloaded
firmware bytes) and the loader's progress callbacks by `events`, the
`(written, total)` pairs with which `esptool-js` invokes `reportProgress`
while `writeFlash` runs.  The `onLog` lines are not modelled.  Control flow
from the source: empty buffer and missing loader throw before `writeFlash`;
after `writeFlash` come `espLoader.after()` and, when a transport exists,
the hard-reset pulse `setDTR(false); setRTS(true); sleep(100); setRTS(false)`.
No field of the service is mutated, and no reading/Reading-state check of
any kind is performed. -/
def flashFirmware (st : FlashServiceState) (fetched : Option (List Nat))
    (events : List (Nat × Nat)) : Except FlashErr Unit × List SerialAction :=
  match fetched with
  | none => (.error .downloadError, [])
  | some firmwareBuffer =>
    if firmwareBuffer.length = 0 then (.error .emptyFirmware, [])
    else if st.espLoader = false then (.error .deviceNotConnected, [])
    else
      let progressActs := events.map fun e => SerialAction.onProgress (reportProgress e.1 e.2)
      let resetActs :=
        if st.transport then
          [SerialAction.setDTR false, SerialAction.setRTS true, SerialAction.delayMs 100, SerialAction.setRTS false]
        else []
      (.ok (), SerialAction.writeFlash firmwareBuffer :: (progressActs ++ SerialAction.espAfter :: resetActs))

/-- `FlashService.reset`: throws if no transport, otherwise pulses
`setDTR(false); setRTS(true); sleep(100); setRTS(false)`. -/
def flashReset (st : FlashServiceState) : Except FlashErr (List SerialAction) :=
  if st.transport = false then .error .transportUnavailable
  else .ok [SerialAction.setDTR false, SerialAction.setRTS true, SerialAction.delayMs 100, SerialAction.setRTS false]

/-- `FlashService.isSerialReading`: `return this.transport !== null` — it
reports transport presence, not whether any read loop is running. -/
def isSerialReading (st : FlashServiceState) : Bool := st.transport

/-- `FlashService.startSerialMonitoring`: without a transport it only logs;
with one it launches the background `rawRead` loop. -/
def startSerialMonitoring (st : FlashServiceState) : FlashServiceState :=
  if st.transport then { st with monitoring := true } else st

/-- Failure injection for the `await`ed platform calls during release:
which of them reject. -/
structure ReleaseEnv where
  readerCancelFails : Bool
  writerCloseFails : Bool
  transportDisconnectFails : Bool
  portCloseFails : Bool
deriving Repr, DecidableEq

/-- `FlashService.disconnect`.  The whole body is wrapped in
`try { ... } catch { return false }`, so the method itself never throws:
it returns `true` on full success and `false` when a stage threw.  Stages in
source order: cancel+release the reader, close+release the writer,
`transport.disconnect()`, `port.close()` — the port stage alone has an inner
`try/catch`, so a throwing `port.close()` is only warned about and the field
is still cleared.  A throw in an earlier stage jumps to the outer catch
*before* the corresponding field is nulled, leaving that stage's field and
all later fields (and `espLoader`) still set. -/
def flashDisconnect (st : FlashServiceState) (env : ReleaseEnv) :
    Bool × FlashServiceState :=
  if st.reader ∧ env.readerCancelFails then (false, st)
  else
    let st1 := { st with reader := false }
    if st1.writer ∧ env.writerCloseFails then (false, st1)
    else
      let st2 := { st1 with writer := false }
      if st2.transport ∧ env.transportDisconnectFails then (false, st2)
      else
        let st3 := { st2 with transport := false }
        let st4 := { st3 with port := false }
        (true, { st4 with espLoader := false })

/-- The nullable fields of `ConsoleTestService` (and of its text-identical
twin `FlashReadService`), abstracted to presence flags.  `deviceWritable`
models `this.device?.writable` being non-null. -/
structure ConsoleServiceState where
  device : Bool
  deviceWritable : Bool
  transport : Bool
  isConsoleClosed : Bool
  terminal : Bool
deriving Repr, DecidableEq

/-- `ConsoleTestService.reset` (idem `FlashReadService.reset`): with a
transport, `setDTR(false); sleep(100); setDTR(true)` — a DTR pulse, not the
DTR/RTS pulse of `FlashService.reset`; without one, nothing. -/
def consoleReset (st : ConsoleServiceState) : List SerialAction :=
  if st.transport then [SerialAction.setDTR false, SerialAction.delayMs 100, SerialAction.setDTR true]
  else []

/-- `ConsoleTestService.stopConsole` (idem `FlashReadService.stopConsole`):
sets the cancellation flag, then `await transport.disconnect()` and
`await transport.waitForUnlock(1500)` with **no** `try/catch` — a rejection
of `transport.disconnect()` propagates to the caller (`.error ()`) with
`cleanUp()` never reached. -/
def stopConsole (st : ConsoleServiceState) (env : ReleaseEnv) :
    Except Unit (ConsoleServiceState × List SerialAction) :=
  let st1 := { st with isConsoleClosed := true }
  if st1.transport ∧ env.transportDisconnectFails then .error ()
  else
    let acts :=
      (if st1.transport then [SerialAction.transportDisconnect, SerialAction.waitForUnlock 1500] else [])
        ++ (if st1.terminal then [SerialAction.terminalClear] else [])
    .ok ({ st1 with device := false, deviceWritable := false, transport := false }, acts)

/-- `data.endsWith("\r\n")`. -/
def endsWithCRLF (data : List Char) : Bool :=
  match data.reverse with
  | '\n' :: '\r' :: _ => true
  | _ => false

/-- UTF-8 encoding of one scalar value, as produced by `TextEncoder`
(`Char` carries only Unicode scalar values, so the lone-surrogate →
`U+FFFD` rule of `TextEncoder` never fires in this model). -/
def utf8Char (c : Char) : List Nat :=
  let n := c.toNat
  if n < 0x80 then [n]
  else if n < 0x800 then [0xC0 + n / 0x40, 0x80 + n % 0x40]
  else if n < 0x10000 then [0xE0 + n / 0x1000, 0x80 + n / 0x40 % 0x40, 0x80 + n % 0x40]
  else [0xF0 + n / 0x40000, 0x80 + n / 0x1000 % 0x40, 0x80 + n / 0x40 % 0x40, 0x80 + n % 0x40]

/-- `new TextEncoder().encode(text)`. -/
def utf8Encode (data : List Char) : List Nat := (data.map utf8Char).flatten

/-- The `dataWithNewLine` local of `sendData`:
`data.endsWith("\r\n") ? data : data + "\r\n"`. -/
def jsWithCRLF (data : List Char) : List Char :=
  if endsWithCRLF data then data else data ++ ['\r', '\n']

/-- `ConsoleTestService.sendData` (idem `FlashReadService.sendData`): throws
if no transport; otherwise UTF-8-encodes `dataWithNewLine` and, when
`this.device?.writable` is present, writes the bytes through a port writer
(when it is not, the bytes are silently dropped). -/
def consoleSendData (st : ConsoleServiceState) (data : List Char) :
    Except Unit (List SerialAction) :=
  if st.transport = false then .error ()
  else
    let dataArray := utf8Encode (jsWithCRLF data)
    if st.device ∧ st.deviceWritable then .ok [SerialAction.portWrite dataArray]
    else .ok []

/-- The values handed to `onProgress`, read off an action trace. -/
def progressOutputs (trace : List SerialAction) : List Int :=
  trace.filterMap fun a =>
    match a with
    | .onProgress p => some p
    | _ => none

example : reportProgress 999 1000 = 100 := by norm_num [reportProgress, jsRound]
example : reportProgress 994 1000 = 99 := by norm_num [reportProgress, jsRound]


/-- Modelled from the spec's words, for comparison only (§4.2: "each
parameter parsed as an unsigned integer (non-numeric or empty parameter
defaults to 0)"): the value of a parameter that is a non-empty string of
decimal digits, 0 for every other parameter. -/
def specUnsignedParam (s : List Char) : Int :=
  if s ≠ [] ∧ s.all Char.isDigit then jsDigitsVal s else 0

/-- The SGR codes `processAnsiCode` recognizes: `{0, 1, 3, 4, 30–37, 40–47,
90–97}`. -/
def recognizedAnsiCode (code : Int) : Prop :=
  code = 0 ∨ code = 1 ∨ code = 3 ∨ code = 4 ∨ (30 ≤ code ∧ code ≤ 37) ∨
    (40 ≤ code ∧ code ≤ 47) ∨ (90 ≤ code ∧ code ≤ 97)

instance (code : Int) : Decidable (recognizedAnsiCode code) := by
  unfold recognizedAnsiCode
  infer_instance

/-! ## Theorems -/

/-- Folding `write` over a list of chunks appends their concatenation. -/
lemma foldl_termWrite_eq_flatten (chunks : List (List Char)) (init : List Char) :
    chunks.foldl termWrite init = init ++ chunks.flatten := by
  induction chunks generalizing init with
  | nil => simp [termWrite]
  | cons c cs ih => simp [termWrite, ih]

/-- **C1** (confirmed): feeding any split of a text into two or more chunks
through the terminal's `write` one at a time and then parsing yields exactly
the styled-run sequence of parsing after a single `write` of the whole text —
chunk boundaries inside an escape sequence included — because `write` only
appends to `content` and the component re-parses the whole accumulated
`content`. -/
theorem termWrite_chunked_eq_whole (chunks : List (List Char)) (whole : List Char)
    (hjoin : chunks.flatten = whole) (_hsplit : 2 ≤ chunks.length) :
    termTokens (chunks.foldl termWrite []) = termTokens (termWrite [] whole) := by
  subst hjoin
  rw [foldl_termWrite_eq_flatten]
  rfl

/-- Witness for **C1**: the chunk boundary falls inside the escape sequence
`ESC[31m`, between the parameter digits. -/
theorem termWrite_chunked_eq_whole_witness :
    termTokens ([['\x1b', '[', '3'], ['1', 'm', 'A']].foldl termWrite []) =
      termTokens (termWrite [] "\x1b[31mA".data) :=
  termWrite_chunked_eq_whole [['\x1b', '[', '3'], ['1', 'm', 'A']] "\x1b[31mA".data
    (by decide) (by decide)

/-- **C2 counterexample**: after `write("\x1b[31mHELLO\x1b[0m")`,
`getContent()` does *not* return `"HELLO"` — the source's `getContent` is
`() => content` and returns the raw accumulated string, escape sequences
included. -/
theorem getContent_not_stripped_counterexample :
    termGetContent (termWrite [] "\x1b[31mHELLO\x1b[0m".data) ≠ "HELLO".data := by
  decide

/-- **C2 amended**: after `write("\x1b[31mHELLO\x1b[0m")` on an empty
terminal, `getContent()` returns the raw written string (escape sequences
are not stripped), and the parsed run list is exactly one token
`{text: "HELLO", style: {color: "#cc0000"}}` (palette entry 1). -/
theorem getContent_raw_and_single_red_run :
    termGetContent (termWrite [] "\x1b[31mHELLO\x1b[0m".data) =
      "\x1b[31mHELLO\x1b[0m".data ∧
    termTokens (termWrite [] "\x1b[31mHELLO\x1b[0m".data) =
      [{ text := "HELLO".data, style := { color := some "#cc0000" } }] :=
  ⟨rfl, by decide⟩
example :
    (flashFirmware ⟨true, true, true, false, false, true⟩ (some [1]) []).1 = .ok () := by
  decide
example : consoleSendData ⟨true, true, true, false, true⟩ ['h', 'i'] =
    .ok [SerialAction.portWrite [104, 105, 13, 10]] := by decide

/-- No flush in `parseAnsiText` ever emits an empty-text token: every flush
is guarded by `if (currentText)`. -/
lemma mem_parseAnsiGo_text_ne_nil (s : List Char) (inEsc : Bool)
    (escBuf curText : List Char) (style : AnsiStyle) :
    ∀ tok ∈ parseAnsiGo s inEsc escBuf curText style, tok.text ≠ [] := by
  induction s, inEsc, escBuf, curText, style using parseAnsiGo.induct with
  | case1 b eb st => simp [parseAnsiGo]
  | case2 b eb ct st h =>
    intro tok htok
    simp [parseAnsiGo, h] at htok
    simp [htok, h]
  | case3 rest2 b eb ct st ih =>
    intro tok htok
    by_cases hct : ct = [] <;> simp [parseAnsiGo, hct] at htok
    · exact ih tok htok
    · rcases htok with h1 | h1
      · simp [h1, hct]
      · exact ih tok h1
  | case4 rest2 eb ct st h ih =>
    intro tok htok
    simp [parseAnsiGo, h] at htok
    exact ih tok htok
  | case5 c rest2 eb ct st h1 h2 ih =>
    intro tok htok
    simp [parseAnsiGo, h1, h2] at htok
    exact ih tok htok
  | case6 c rest2 b eb ct st h1 h2 ih =>
    intro tok htok
    simp [parseAnsiGo, h1, h2] at htok
    exact ih tok htok
  | case7 rest eb ct st hx ih =>
    intro tok htok
    simp [parseAnsiGo, hx] at htok
    exact ih tok htok
  | case8 c rest eb ct st hx h ih =>
    intro tok htok
    simp [parseAnsiGo, hx, h] at htok
    exact ih tok htok
  | case9 c rest b eb ct st hx h ih =>
    intro tok htok
    simp [parseAnsiGo, hx, h] at htok
    exact ih tok htok

/-- **C9** (confirmed): every styled run emitted by the ANSI parser has
non-empty text, for every input string — including inputs that start with an
escape sequence, contain adjacent escape sequences, or consist only of
escape sequences. -/
theorem parsed_runs_text_nonempty (s : List Char) (tok : AnsiToken)
    (h : tok ∈ parseAnsiText s) : tok.text ≠ [] :=
  mem_parseAnsiGo_text_ne_nil s false [] [] {} tok h

/-- Witness for **C9** at the concrete input `"\x1b[1mA"`. -/
theorem parsed_runs_text_nonempty_witness :
    ({ text := ['A'], style := { fontWeight := some "bold" } } : AnsiToken).text ≠ [] :=
  parsed_runs_text_nonempty "\x1b[1mA".data _ (by decide)

/-- Reaching `m` while inside an escape sequence fires the terminator
branch: parsing continues outside the escape with the buffered codes folded
into the active style. -/
lemma parseAnsiGo_terminator (rest escBuf curText : List Char) (style : AnsiStyle) :
    parseAnsiGo ('m' :: rest) true escBuf curText style =
      parseAnsiGo rest false escBuf curText (applyAnsiCodes escBuf style) := by
  rcases rest with _ | ⟨d, rest'⟩
  · rfl
  · by_cases hd : d = '['
    · subst hd; rfl
    · have hx : ∀ rest2 : List Char, d :: rest' = '[' :: rest2 → False := by
        intro r2 heq
        injection heq with h1 _
        exact hd h1
      simp [parseAnsiGo, hx]

lemma isDigit_toNat_bounds {c : Char} (h : c.isDigit = true) :
    48 ≤ c.toNat ∧ c.toNat ≤ 57 := by
  unfold Char.isDigit at h
  rw [Bool.and_eq_true, decide_eq_true_eq, decide_eq_true_eq] at h
  exact ⟨UInt32.le_toNat_of_le (by norm_num) h.1, UInt32.toNat_le_of_le (by norm_num) h.2⟩

lemma isDigit_not_jsWhitespace {c : Char} (h : c.isDigit = true) :
    jsWhitespace c = false := by
  obtain ⟨h1, h2⟩ := isDigit_toNat_bounds h
  unfold jsWhitespace
  simp only [List.contains_cons, List.contains_nil, Bool.or_eq_false_iff,
    beq_eq_false_iff_ne, ne_eq, and_true]
  omega

lemma isDigit_ne_dash_plus {c : Char} (h : c.isDigit = true) : c ≠ '-' ∧ c ≠ '+' := by
  obtain ⟨h1, h2⟩ := isDigit_toNat_bounds h
  constructor <;> rintro rfl <;> simp_all

lemma takeWhile_of_all {p : Char → Bool} {l : List Char} (h : l.all p = true) :
    l.takeWhile p = l := by
  induction l with
  | nil => rfl
  | cons c cs ih =>
    rw [List.all_cons, Bool.and_eq_true] at h
    rw [List.takeWhile_cons, if_pos h.1, ih h.2]

/-- On a parameter that really is a non-empty digit string, `parseInt`
agrees with the spec's "unsigned integer" reading. -/
lemma jsParseIntCode_all_digits {buf : List Char} (hbuf : buf ≠ [])
    (hdig : buf.all Char.isDigit = true) :
    jsParseIntCode buf = specUnsignedParam buf := by
  rcases buf with _ | ⟨c, cs⟩
  · exact absurd rfl hbuf
  · have hall := hdig
    rw [List.all_cons, Bool.and_eq_true] at hdig
    have hdrop : (c :: cs).dropWhile jsWhitespace = c :: cs := by
      rw [List.dropWhile_cons, if_neg (by simp [isDigit_not_jsWhitespace hdig.1])]
    have hne := isDigit_ne_dash_plus hdig.1
    rw [jsParseIntCode, hdrop]
    have htake : (c :: cs).takeWhile Char.isDigit = c :: cs := takeWhile_of_all hall
    rw [specUnsignedParam, if_pos ⟨List.cons_ne_nil c cs, hall⟩]
    split
    · next u heq =>
      injection heq with he _
      exact absurd he hne.1
    · next u heq =>
      injection heq with he _
      exact absurd he hne.2
    · next heq _ _ =>
      rw [htake]

lemma processAnsiCode_zero (s : AnsiStyle) : processAnsiCode s 0 = {} := rfl

lemma processAnsiCode_unrecognized (s : AnsiStyle) (code : Int)
    (h : ¬ recognizedAnsiCode code) : processAnsiCode s code = s := by
  simp only [recognizedAnsiCode, not_or] at h
  unfold processAnsiCode
  split_ifs <;> first | rfl | omega

/-- **C7 counterexample**: the claim reads every non-numeric parameter as 0,
but `parseInt("1x", 10)` parses the digit prefix and yields 1, so
`"\x1b[1xmA"` renders `A` bold where the claim predicts an unstyled `A`. -/
theorem ansi_param_not_unsigned_counterexample :
    jsParseIntCode "1x".data = 1 ∧ specUnsignedParam "1x".data = 0 ∧
    parseAnsiText "\x1b[1xmA".data =
      [{ text := ['A'], style := { fontWeight := some "bold" } }] ∧
    parseAnsiText "\x1b[1xmA".data ≠ [{ text := ['A'], style := {} }] := by
  decide

/-- **C7 amended**: on an `m` terminator the parameter buffer is split on
`;` and each parameter is parsed with JavaScript `parseInt(·, 10) || 0`
semantics — optional whitespace and sign, then the longest leading digit
run, with a digit-free parameter coerced to 0 (on parameters that are pure
non-empty digit strings this coincides with the claim's unsigned reading) —
and the codes are applied to the active style in left-to-right order; code 0
resets the style to empty and every code outside
`{0, 1, 3, 4, 30–37, 40–47, 90–97}` leaves the style unchanged without
raising. -/
theorem ansi_terminator_amended (rest escBuf curText buf : List Char)
    (style s : AnsiStyle) (code : Int)
    (hbuf : buf ≠ []) (hdig : buf.all Char.isDigit = true)
    (hcode : ¬ recognizedAnsiCode code) :
    parseAnsiGo ('m' :: rest) true escBuf curText style =
      parseAnsiGo rest false escBuf curText (applyAnsiCodes escBuf style) ∧
    applyAnsiCodes escBuf style =
      ((splitSemi escBuf).map jsParseIntCode).foldl processAnsiCode style ∧
    jsParseIntCode buf = specUnsignedParam buf ∧
    processAnsiCode s 0 = {} ∧
    processAnsiCode s code = s :=
  ⟨parseAnsiGo_terminator rest escBuf curText style, rfl,
    jsParseIntCode_all_digits hbuf hdig, processAnsiCode_zero s,
    processAnsiCode_unrecognized s code hcode⟩

/-- Witness for **C7 amended** with buffer `"31"`, an unrecognized code 99
and a bold active style. -/
theorem ansi_terminator_amended_witness :
    parseAnsiGo ('m' :: ['A']) true "31".data [] {} =
      parseAnsiGo ['A'] false "31".data [] (applyAnsiCodes "31".data {}) ∧
    applyAnsiCodes "31".data {} =
      ((splitSemi "31".data).map jsParseIntCode).foldl processAnsiCode {} ∧
    jsParseIntCode "31".data = specUnsignedParam "31".data ∧
    processAnsiCode { fontWeight := some "bold" } 0 = {} ∧
    processAnsiCode { fontWeight := some "bold" } 99 = { fontWeight := some "bold" } :=
  ansi_terminator_amended ['A'] "31".data [] "31".data {} { fontWeight := some "bold" }
    99 (by decide) (by decide) (by decide)

/-- **C5** (confirmed): a flash request whose downloaded firmware is the
empty byte sequence fails with the empty-firmware error ("Firmware empty or
not found") before anything else happens — the returned trace is empty, so
in particular the loader's `writeFlash` is never invoked. -/
theorem flash_empty_source_rejected (st : FlashServiceState)
    (events : List (Nat × Nat)) :
    flashFirmware st (some []) events = (.error .emptyFirmware, []) := rfl

/-- **C3 counterexample**: in a state whose background read loop is active
(produced by `startSerialMonitoring` on a connected state), `flashFirmware`
does *not* fail with `OperationNotPermitted` — it succeeds and invokes the
loader's `writeFlash`. -/
theorem flash_while_reading_not_rejected_counterexample :
    (startSerialMonitoring ⟨true, true, true, false, false, false⟩).monitoring = true ∧
    isSerialReading (startSerialMonitoring ⟨true, true, true, false, false, false⟩) = true ∧
    (flashFirmware (startSerialMonitoring ⟨true, true, true, false, false, false⟩)
        (some [1]) []).1 ≠ .error .operationNotPermitted ∧
    SerialAction.writeFlash [1] ∈
      (flashFirmware (startSerialMonitoring ⟨true, true, true, false, false, false⟩)
        (some [1]) []).2 := by
  decide

/-- **C3 amended**: `flashFirmware` performs no reading-state check and no
`OperationNotPermitted` error exists in the code: whenever a loader is
present and the firmware is non-empty, the flash proceeds and `writeFlash`
is invoked — whether or not a serial read loop is active (the conclusion
does not depend on `monitoring`, and `isSerialReading` only reports
transport presence). -/
theorem flash_ignores_reading_state (st : FlashServiceState) (bytes : List Nat)
    (events : List (Nat × Nat)) (hl : st.espLoader = true) (hb : bytes ≠ []) :
    (flashFirmware st (some bytes) events).1 = .ok () ∧
    SerialAction.writeFlash bytes ∈ (flashFirmware st (some bytes) events).2 := by
  have hlen : bytes.length ≠ 0 := by simpa using hb
  constructor <;> simp [flashFirmware, hl, hlen]

/-- Witness for **C3 amended** in a monitoring state. -/
theorem flash_ignores_reading_state_witness :
    (flashFirmware ⟨true, true, true, false, false, true⟩ (some [1]) []).1 = .ok () ∧
    SerialAction.writeFlash [1] ∈
      (flashFirmware ⟨true, true, true, false, false, true⟩ (some [1]) []).2 :=
  flash_ignores_reading_state ⟨true, true, true, false, false, true⟩ [1] [] rfl
    (by decide)

/-- On the success path, the values handed to `onProgress` are exactly
`reportProgress` of the loader's progress events, in order. -/
lemma filterMap_onProgress (events : List (Nat × Nat)) :
    List.filterMap
      (fun a => match a with | SerialAction.onProgress p => some p | _ => none)
      (events.map fun e => SerialAction.onProgress (reportProgress e.1 e.2)) =
    events.map fun e => reportProgress e.1 e.2 := by
  induction events with
  | nil => rfl
  | cons e es ih => simp [ih]

lemma progressOutputs_flashFirmware (st : FlashServiceState) (bytes : List Nat)
    (events : List (Nat × Nat)) (hl : st.espLoader = true) (hb : bytes ≠ []) :
    progressOutputs (flashFirmware st (some bytes) events).2 =
      events.map fun e => reportProgress e.1 e.2 := by
  have hlen : bytes.length ≠ 0 := by simpa using hb
  have hfm := filterMap_onProgress events
  by_cases ht : st.transport <;>
    simp [flashFirmware, progressOutputs, hl, hlen, ht] <;>
    simpa using hfm

lemma jsRound_mono {q r : ℚ} (h : q ≤ r) : jsRound q ≤ jsRound r :=
  Int.floor_le_floor (by linarith)

lemma reportProgress_mono {w w' T : Nat} (hT : 0 < T) (h : w ≤ w') :
    reportProgress w T ≤ reportProgress w' T := by
  apply jsRound_mono
  have hT' : (0 : ℚ) < T := by exact_mod_cast hT
  have hw : (w : ℚ) ≤ w' := by exact_mod_cast h
  gcongr

lemma reportProgress_self {T : Nat} (hT : 0 < T) : reportProgress T T = 100 := by
  unfold reportProgress jsRound
  rw [div_self (by exact_mod_cast hT.ne' : (T : ℚ) ≠ 0)]
  norm_num

/-- **C6 counterexample**: with total 1000 and loader progress written values
`[999, 1000]` — non-decreasing and ending at `written = total` — the values
handed to `onProgress` are `[100, 100]`: `round(999/1000*100) = 100` already,
so 100 is *not* reported exactly once. -/
theorem progress_hits_100_twice_counterexample :
    List.Chain' (· ≤ ·) [999, 1000] ∧ [999, 1000].getLast? = some 1000 ∧
    progressOutputs (flashFirmware ⟨true, true, true, false, false, false⟩ (some [1])
        ([999, 1000].map fun w => (w, 1000))).2 = [100, 100] ∧
    ([100, 100] : List Int).count 100 ≠ 1 := by
  have h1 : reportProgress 999 1000 = 100 := by norm_num [reportProgress, jsRound]
  have h2 : reportProgress 1000 1000 = 100 := by norm_num [reportProgress, jsRound]
  refine ⟨by simp, by decide, ?_, by decide⟩
  rw [progressOutputs_flashFirmware _ _ _ rfl (by decide)]
  simp [h1, h2]

/-- **C6 amended**: for a successful flash whose loader emits progress events
with non-decreasing `written` values (all sharing the positive total `T`)
ending at `written = T`, the `onProgress` values `round(written/T*100)` are
monotonically non-decreasing and the final value is 100 — so 100 is reached,
but it may be reported more than once (a penultimate `written` can already
round to 100). -/
theorem flash_progress_monotone_ends_at_100 (st : FlashServiceState)
    (bytes : List Nat) (ws : List Nat) (T : Nat) (hl : st.espLoader = true)
    (hb : bytes ≠ []) (hT : 0 < T) (hmono : List.Chain' (· ≤ ·) ws)
    (hlast : ws.getLast? = some T) :
    List.Chain' (· ≤ ·)
      (progressOutputs (flashFirmware st (some bytes) (ws.map fun w => (w, T))).2) ∧
    (progressOutputs
        (flashFirmware st (some bytes) (ws.map fun w => (w, T))).2).getLast? =
      some 100 := by
  have hps : progressOutputs (flashFirmware st (some bytes) (ws.map fun w => (w, T))).2 =
      ws.map fun w => reportProgress w T := by
    rw [progressOutputs_flashFirmware st bytes _ hl hb, List.map_map]
    rfl
  rw [hps]
  constructor
  · exact List.chain'_map_of_chain' _ (fun _ _ h => reportProgress_mono hT h) hmono
  · rw [List.getLast?_map, hlast]
    simp [reportProgress_self hT]

/-- Witness for **C6 amended** with written values `[500, 1000]` and total
1000. -/
theorem flash_progress_monotone_ends_at_100_witness :
    List.Chain' (· ≤ ·)
      (progressOutputs (flashFirmware ⟨true, true, true, false, false, false⟩
        (some [1]) ([500, 1000].map fun w => (w, 1000))).2) ∧
    (progressOutputs (flashFirmware ⟨true, true, true, false, false, false⟩
        (some [1]) ([500, 1000].map fun w => (w, 1000))).2).getLast? = some 100 :=
  flash_progress_monotone_ends_at_100 ⟨true, true, true, false, false, false⟩ [1]
    [500, 1000] 1000 rfl (by decide) (by decide) (by simp) (by decide)

/-- **C8 counterexample**: `ConsoleTestService.reset` does not perform the
claimed deassert-DTR / assert-RTS / hold / deassert-RTS sequence — it pulses
DTR only (`setDTR(false); sleep(100); setDTR(true)`) and never touches RTS. -/
theorem console_reset_pulse_differs_counterexample :
    consoleReset ⟨true, true, true, false, true⟩ =
      [SerialAction.setDTR false, SerialAction.delayMs 100, SerialAction.setDTR true] ∧
    consoleReset ⟨true, true, true, false, true⟩ ≠
      [SerialAction.setDTR false, SerialAction.setRTS true, SerialAction.delayMs 100,
        SerialAction.setRTS false] := by
  decide

/-- **C8 amended**: `FlashService.reset` and the post-flash reboot inside
`flashFirmware` both perform exactly deassert DTR, assert RTS, hold ~100 ms,
deassert RTS; `ConsoleTestService.reset` (and its twin
`FlashReadService.reset`) instead performs deassert DTR, hold ~100 ms,
assert DTR. -/
theorem reset_pulse_amended (st : FlashServiceState) (cst : ConsoleServiceState)
    (bytes : List Nat) (events : List (Nat × Nat)) (ht : st.transport = true)
    (hl : st.espLoader = true) (hb : bytes ≠ []) (hct : cst.transport = true) :
    flashReset st = .ok [SerialAction.setDTR false, SerialAction.setRTS true,
      SerialAction.delayMs 100, SerialAction.setRTS false] ∧
    (flashFirmware st (some bytes) events).2 =
      (SerialAction.writeFlash bytes ::
        (events.map fun e => SerialAction.onProgress (reportProgress e.1 e.2)) ++
          [SerialAction.espAfter]) ++
        [SerialAction.setDTR false, SerialAction.setRTS true,
          SerialAction.delayMs 100, SerialAction.setRTS false] ∧
    consoleReset cst =
      [SerialAction.setDTR false, SerialAction.delayMs 100, SerialAction.setDTR true] := by
  have hlen : bytes.length ≠ 0 := by simpa using hb
  refine ⟨by simp [flashReset, ht], ?_, by simp [consoleReset, hct]⟩
  simp [flashFirmware, hl, hlen, ht]

/-- Witness for **C8 amended** at concrete connected states. -/
theorem reset_pulse_amended_witness :
    flashReset ⟨true, true, true, false, false, false⟩ =
      .ok [SerialAction.setDTR false, SerialAction.setRTS true,
        SerialAction.delayMs 100, SerialAction.setRTS false] ∧
    (flashFirmware ⟨true, true, true, false, false, false⟩ (some [1]) []).2 =
      (SerialAction.writeFlash [1] ::
        (([] : List (Nat × Nat)).map fun e =>
          SerialAction.onProgress (reportProgress e.1 e.2)) ++
          [SerialAction.espAfter]) ++
        [SerialAction.setDTR false, SerialAction.setRTS true,
          SerialAction.delayMs 100, SerialAction.setRTS false] ∧
    consoleReset ⟨true, true, true, false, true⟩ =
      [SerialAction.setDTR false, SerialAction.delayMs 100, SerialAction.setDTR true] :=
  reset_pulse_amended ⟨true, true, true, false, false, false⟩ ⟨true, true, true, false, true⟩
    [1] [] rfl rfl (by decide) rfl

/-- **C4 counterexample**: from a connected (non-`Disconnected`) state, when
the `await`ed `transport.disconnect()` rejects, `FlashService.disconnect`
returns `false` with the transport (and port, loader) still held — the
session does not end fully released — and `ConsoleTestService.stopConsole`
propagates the rejection to its caller instead of never raising. -/
theorem disconnect_not_always_released_counterexample :
    (flashDisconnect ⟨true, true, true, false, false, false⟩
        ⟨false, false, true, false⟩).1 = false ∧
    ((flashDisconnect ⟨true, true, true, false, false, false⟩
        ⟨false, false, true, false⟩).2).transport = true ∧
    ((flashDisconnect ⟨true, true, true, false, false, false⟩
        ⟨false, false, true, false⟩).2).port = true ∧
    stopConsole ⟨true, true, true, false, true⟩ ⟨false, false, true, false⟩ =
      .error () := by
  decide

/-- **C4 amended**: `FlashService.disconnect` itself never raises (every
outcome is a returned boolean), and whenever none of reader-cancel,
writer-close and transport-disconnect reject — a rejecting `port.close()` is
tolerated by an inner catch — it returns `true` with port, transport, loader,
reader and writer all released; if one of those earlier `await`s rejects it
returns `false` and leaves the not-yet-released resources in place
(`ConsoleTestService.stopConsole` moreover propagates such a rejection, per
the counterexample). -/
theorem flash_disconnect_releases_when_closes_succeed (st : FlashServiceState)
    (env : ReleaseEnv) (h1 : env.readerCancelFails = false)
    (h2 : env.writerCloseFails = false) (h3 : env.transportDisconnectFails = false) :
    flashDisconnect st env =
      (true, { espLoader := false, port := false, transport := false, reader := false,
               writer := false, monitoring := st.monitoring }) := by
  simp [flashDisconnect, h1, h2, h3]

/-- Witness for **C4 amended**: full release even with a rejecting
`port.close()`. -/
theorem flash_disconnect_releases_when_closes_succeed_witness :
    flashDisconnect ⟨true, true, true, true, true, true⟩ ⟨false, false, false, true⟩ =
      (true, { espLoader := false, port := false, transport := false, reader := false,
               writer := false, monitoring := true }) :=
  flash_disconnect_releases_when_closes_succeed ⟨true, true, true, true, true, true⟩
    ⟨false, false, false, true⟩ rfl rfl rfl

lemma utf8Encode_append (a b : List Char) :
    utf8Encode (a ++ b) = utf8Encode a ++ utf8Encode b := by
  unfold utf8Encode
  rw [List.map_append, List.flatten_append]

lemma utf8Encode_crlf : utf8Encode ['\r', '\n'] = [13, 10] := by decide

lemma endsWithCRLF_eq {data : List Char} (h : endsWithCRLF data = true) :
    ∃ pre, data = pre ++ ['\r', '\n'] := by
  revert h
  unfold endsWithCRLF
  split
  · next xs heq =>
    intro _
    refine ⟨xs.reverse, ?_⟩
    have hdata := congrArg List.reverse heq
    simpa using hdata
  · intro h
    exact absurd h (by simp)

/-- Whatever `sendData` transmits ends in the CRLF bytes `[13, 10]`. -/
lemma sendData_bytes_end_crlf (data : List Char) :
    [13, 10] <:+ utf8Encode (jsWithCRLF data) := by
  unfold jsWithCRLF
  by_cases h : endsWithCRLF data = true
  · rw [if_pos h]
    obtain ⟨pre, hpre⟩ := endsWithCRLF_eq h
    rw [hpre, utf8Encode_append, utf8Encode_crlf]
    exact ⟨utf8Encode pre, rfl⟩
  · rw [if_neg h, utf8Encode_append, utf8Encode_crlf]
    exact ⟨utf8Encode data, rfl⟩

/-- **C10** (confirmed): with a transport and a writable device, `sendData`
transmits the UTF-8 encoding of `dataWithNewLine`, which appends `"\r\n"` to
the input exactly when the input does not already end with `"\r\n"`; every
transmitted byte sequence therefore ends with `[13, 10]`, and an
already-terminated input is passed through unchanged (never
double-terminated).  The definition embeds `ConsoleTestService.sendData`,
whose body is text-identical to `FlashReadService.sendData`. -/
theorem sendData_appends_crlf_iff (st : ConsoleServiceState) (data : List Char)
    (ht : st.transport = true) (hd : st.device = true) (hw : st.deviceWritable = true) :
    consoleSendData st data =
      .ok [SerialAction.portWrite (utf8Encode (jsWithCRLF data))] ∧
    (endsWithCRLF data = true → jsWithCRLF data = data) ∧
    (endsWithCRLF data = false → jsWithCRLF data = data ++ ['\r', '\n']) ∧
    [13, 10] <:+ utf8Encode (jsWithCRLF data) := by
  refine ⟨?_, ?_, ?_, sendData_bytes_end_crlf data⟩
  · simp [consoleSendData, ht, hd, hw]
  · intro h
    simp [jsWithCRLF, h]
  · intro h
    simp [jsWithCRLF, h]

/-- Witness for **C10** at the unterminated input `"hi"`. -/
theorem sendData_appends_crlf_iff_witness :
    consoleSendData ⟨true, true, true, false, true⟩ ['h', 'i'] =
      .ok [SerialAction.portWrite (utf8Encode (jsWithCRLF ['h', 'i']))] ∧
    (endsWithCRLF ['h', 'i'] = true → jsWithCRLF ['h', 'i'] = ['h', 'i']) ∧
    (endsWithCRLF ['h', 'i'] = false →
      jsWithCRLF ['h', 'i'] = ['h', 'i'] ++ ['\r', '\n']) ∧
    [13, 10] <:+ utf8Encode (jsWithCRLF ['h', 'i']) :=
  sendData_appends_crlf_iff ⟨true, true, true, false, true⟩ ['h', 'i'] rfl rfl rfl
